import Mathlib

set_option linter.unusedVariables false

/-!
Shallow embedding of the Python code in `src/Parallel.ipynb`
(two educational notebooks on parallelism and optimization).

Conventions of the embedding:
* numpy float64 arrays are modelled as `List K` over an arbitrary field `K`
  (instantiated with `ℚ` in concrete witnesses); float arithmetic is modelled
  by exact field arithmetic, and division is the field's total division
  (`a / 0 = 0`), mirroring the fact that numpy / C double division by zero
  yields a value (inf/nan) rather than raising an exception.
* the library function `np.exp` (and libc `exp` in the Cython kernel, and the
  `exp` of the numexpr expression language) is modelled by an abstract
  parameter `expf : K → K`: all kernels call the same exponential.
* an index loop `for i in range(n): out[i] = e(i)` writing every cell of a
  fresh `np.zeros(n)` exactly once is modelled as a map over `List.range n`;
  reads `y[i]` inside such a loop are modelled by `List.getD y i 0`, which
  agrees with the actual element whenever `i` is in bounds.
-/

namespace AdvPython

section Interp

variable {K : Type} [Field K]

/-- Python source (`Parallel.ipynb`, Optimizing notebook):
`def linear_interpolate(y0, y1, x0, x1, x): return (np.exp(y0**2) * (x1 - x) + y1 * (x - x0)) / (x1 - x0)`.
For equal-length arrays, numpy broadcasting makes this an elementwise zip. -/
def linear_interpolate (expf : K → K) (y0 y1 : List K) (x0 x1 x : K) : List K :=
  List.zipWith (fun a b => (expf (a ^ 2) * (x1 - x) + b * (x - x0)) / (x1 - x0)) y0 y1

/-- Python source: `linear_interpolate_numexpr` calls
`ne.evaluate('(exp(y0**2) * (x1 - x) + y1 * (x - x0))  / (x1 - x0)')`.
`ne_evaluate` models the numexpr library: it compiles the expression string and
evaluates it elementwise over the variables `y0, y1, x0, x1, x` captured from
the caller's frame; this definition is the elementwise reading of exactly that
expression string. -/
def ne_evaluate (expf : K → K) (y0 y1 : List K) (x0 x1 x : K) : List K :=
  List.zipWith (fun a b => (expf (a ^ 2) * (x1 - x) + b * (x - x0)) / (x1 - x0)) y0 y1

/-- Python source:
`def linear_interpolate_numexpr(y0, y1, x0, x1, x): import numexpr as ne; return ne.evaluate('...')`. -/
def linear_interpolate_numexpr (expf : K → K) (y0 y1 : List K) (x0 x1 x : K) : List K :=
  ne_evaluate expf y0 y1 x0 x1 x

/-- Cython source (`%%cython` cell): `linear_cython` allocates
`result = np.zeros(y0.shape[0])` and runs
`for i in range(y_max): result_view[i] = (exp(y0[i] * y0[i]) * (x1 - x) + y1[i] * (x - x0)) / (x1 - x0)`
with `y_max = y0.shape[0]`. Note the square is written `y0[i] * y0[i]` here. -/
def linear_cython (expf : K → K) (y0 y1 : List K) (x0 x1 x : K) : List K :=
  (List.range y0.length).map (fun i =>
    (expf (y0.getD i 0 * y0.getD i 0) * (x1 - x) + y1.getD i 0 * (x - x0)) / (x1 - x0))

/-- Python source (numba `@numba.njit` version):
`def linear_interpolate_good(y0, y1, x0, x1, x): out = np.zeros(y0.shape); for n in numba.prange(y0.shape[0]): out[n] = (np.exp(y0[n]**2) * (x1 - x) + y1[n] * (x - x0)) / (x1 - x0); return out`. -/
def linear_interpolate_good (expf : K → K) (y0 y1 : List K) (x0 x1 x : K) : List K :=
  (List.range y0.length).map (fun n =>
    (expf (y0.getD n 0 ^ 2) * (x1 - x) + y1.getD n 0 * (x - x0)) / (x1 - x0))

/-- Python source (numba `@numba.njit(parallel=True, fastmath=True)` version):
body identical to `linear_interpolate_good`. -/
def linear_interpolate_best (expf : K → K) (y0 y1 : List K) (x0 x1 x : K) : List K :=
  (List.range y0.length).map (fun n =>
    (expf (y0.getD n 0 ^ 2) * (x1 - x) + y1.getD n 0 * (x - x0)) / (x1 - x0))

end Interp

section InterpChecked

variable {K : Type} [Field K]

/-- Numpy 1-D broadcasting of two operand arrays, the library semantics
governing the elementwise expression of `linear_interpolate`: equal lengths
pair elementwise, a length-1 operand is stretched to the other's length, and
any other length mismatch raises `ValueError`. -/
def npBroadcastPair (y0 y1 : List K) : Except String (List (K × K)) :=
  if y0.length = y1.length then Except.ok (y0.zip y1)
  else if y0.length = 1 then Except.ok (y1.map (fun b => (y0.getD 0 0, b)))
  else if y1.length = 1 then Except.ok (y0.map (fun a => (a, y1.getD 0 0)))
  else Except.error "ValueError: operands could not be broadcast together"

/-- Fallible view of `linear_interpolate`: the same source expression
`(np.exp(y0**2) * (x1 - x) + y1 * (x - x0)) / (x1 - x0)`, but with the numpy
broadcasting of the two array operands made explicit, so that the library's
shape-mismatch `ValueError` is visible as an `Except.error`. Scalar division by
zero stays total, as numpy float division warns and yields a value. -/
def linear_interpolateE (expf : K → K) (y0 y1 : List K) (x0 x1 x : K) :
    Except String (List K) :=
  match npBroadcastPair y0 y1 with
  | Except.ok pairs =>
      Except.ok (pairs.map (fun p => (expf (p.1 ^ 2) * (x1 - x) + p.2 * (x - x0)) / (x1 - x0)))
  | Except.error e => Except.error e

end InterpChecked

section Mandelbrot

/-- Complex numbers with exact rational components, modelling the Python
complex float arithmetic in the Mandelbrot cells. -/
structure Cx where
  re : ℚ
  im : ℚ

/-- Python `z * z` on complex numbers. -/
def Cx.mul (a b : Cx) : Cx :=
  ⟨a.re * b.re - a.im * b.im, a.re * b.im + a.im * b.re⟩

/-- Python `z + c` on complex numbers. -/
def Cx.add (a b : Cx) : Cx :=
  ⟨a.re + b.re, a.im + b.im⟩

/-- Squared modulus; the Python guard `np.abs(z) <= 10` is modelled as
`z.absSq ≤ 100`, which is equivalent for complex `z` since both sides of the
guard are nonnegative. -/
def Cx.absSq (z : Cx) : ℚ :=
  z.re * z.re + z.im * z.im

/-- Python source, inner loop of `mandelbrot_python`:
`z = 0` then `for n in range(iterations): if np.abs(z) <= 10: z = z*z + c; m[i, j] = n else: break`.
State: `z` the iterate, `m` the last value written to `m[i, j]` (initially the
`np.zeros` cell `0`), `n` the current loop index, `fuel` the remaining
iterations; `break` is modelled by returning `m` as soon as the guard fails. -/
def mandelLoop (c : Cx) : ℕ → Cx → ℕ → ℕ → ℕ
  | 0, _, m, _ => m
  | fuel + 1, z, m, n =>
      if z.absSq ≤ 100 then mandelLoop c fuel ((z.mul z).add c) n (n + 1) else m

/-- Python source, per-cell computation of `mandelbrot_python`:
`c = (-2 + 3. / size * j + 1j * (1.5 - 3. / size * i))`, then the escape loop
starting from `z = 0` with `m[i, j]` initially `0`. -/
def mandelEntry (size iterations i j : ℕ) : ℕ :=
  let c : Cx := ⟨-2 + 3 / (size : ℚ) * (j : ℚ), 3 / 2 - 3 / (size : ℚ) * (i : ℚ)⟩
  mandelLoop c iterations ⟨0, 0⟩ 0 0

/-- Python source:
`def mandelbrot_python(size, iterations): m = np.zeros((size, size)); for i ...: for j ...: <escape loop>; return m`.
Each cell `m[i, j]` is written independently of the others, so the matrix is
the table of `mandelEntry`. -/
def mandelbrot_python (size iterations : ℕ) : List (List ℕ) :=
  (List.range size).map (fun i => (List.range size).map (fun j => mandelEntry size iterations i j))

/-- Python source, inner loop of `mandelbrot_numba` (the `@numba.njit` copy):
textually identical to the loop of `mandelbrot_python`. -/
def mandelLoopNumba (c : Cx) : ℕ → Cx → ℕ → ℕ → ℕ
  | 0, _, m, _ => m
  | fuel + 1, z, m, n =>
      if z.absSq ≤ 100 then mandelLoopNumba c fuel ((z.mul z).add c) n (n + 1) else m

/-- Per-cell computation of `mandelbrot_numba`, textually identical to that of
`mandelbrot_python`. -/
def mandelEntryNumba (size iterations i j : ℕ) : ℕ :=
  let c : Cx := ⟨-2 + 3 / (size : ℚ) * (j : ℚ), 3 / 2 - 3 / (size : ℚ) * (i : ℚ)⟩
  mandelLoopNumba c iterations ⟨0, 0⟩ 0 0

/-- Python source: `@numba.njit def mandelbrot_numba(size, iterations): ...`,
body identical to `mandelbrot_python`. -/
def mandelbrot_numba (size iterations : ℕ) : List (List ℕ) :=
  (List.range size).map (fun i => (List.range size).map (fun j => mandelEntryNumba size iterations i j))

end Mandelbrot

section Hashing

/-- Python source:
`def hash_one(n): for i in range(1, n): hashlib.pbkdf2_hmac("sha256", b"password", b"salt", i * 10000); return "done"`.
The library digest function is modelled by an abstract parameter
`pbkdf2 : ℕ → List ℕ` (iteration count to digest bytes); every digest is
discarded and the constant string `"done"` is returned. -/
def hash_one (pbkdf2 : ℕ → List ℕ) (n : ℕ) : String :=
  let _digests := ((List.range n).drop 1).map (fun i => pbkdf2 (i * 10000))
  "done"

/-- Python source:
`def hash_all(n): for i in range(n): hsh = hash_one(n); return "done"`.
Note the body calls `hash_one(n)`, not `hash_one(i)`. -/
def hash_all (pbkdf2 : ℕ → List ℕ) (n : ℕ) : String :=
  let _hshs := (List.range n).map (fun _ => hash_one pbkdf2 n)
  "done"

/-- Python source:
`def hash_all_process(n): with ProcessPoolExecutor(max_workers=4) as executor: for arg, res in zip(range(n), executor.map(hash_one, range(n), chunksize=2)): pass; return "done"`.
`executor.map(hash_one, range(n))` applies `hash_one` to each `i < n`; every
result is discarded by the `pass` loop and `"done"` is returned. -/
def hash_all_process (pbkdf2 : ℕ → List ℕ) (n : ℕ) : String :=
  let _results := (List.range n).map (fun i => hash_one pbkdf2 i)
  "done"

/-- Drains an iterator of fallible task results in order, stopping at the first
error: this is the `for arg, res in zip(range(n), executor.map(...)): pass`
loop of `hash_all_process` when the submitted callable may raise — an exception
raised by a task re-surfaces, unmodified, when its result is retrieved. -/
def runTasks {E : Type} (hashOne : ℕ → Except E String) : List ℕ → Except E Unit
  | [] => Except.ok ()
  | i :: rest =>
      match hashOne i with
      | Except.ok _ => runTasks hashOne rest
      | Except.error e => Except.error e

/-- Fallible-call embedding of `hash_all_process`: the body contains no
`try/except`, so it merely sequences the library calls and returns `"done"`;
any error escapes unchanged. -/
def hash_all_processE {E : Type} (hashOne : ℕ → Except E String) (n : ℕ) : Except E String :=
  match runTasks hashOne (List.range n) with
  | Except.ok _ => Except.ok "done"
  | Except.error e => Except.error e

/-- Fallible-call embedding of `linear_interpolate_numexpr`: its body is the
single library call `ne.evaluate('...')` with no `try/except`, so the function
is the call itself: an error from the library escapes unchanged. -/
def linear_interpolate_numexprE {E K : Type} (evalNe : Except E (List K)) : Except E (List K) :=
  evalNe

end Hashing

section Caching

/-- Python source:
`def compute_a_slow_result(x): import time; time.sleep(0.1); return x*2`.
The sleep only costs time and is dropped. -/
def compute_a_slow_result (x : ℤ) : ℤ :=
  x * 2

/-- Lookup in an association list of cached (argument, result) pairs, most
recently used first: models the hit test of `functools.lru_cache`. -/
def lruLookup : List (ℤ × ℤ) → ℤ → Option ℤ
  | [], _ => none
  | (k, v) :: rest, x => if k = x then some v else lruLookup rest x

/-- Python source:
`@lru_cache(maxsize=4) def compute_a_slow_result_cache(x): import time; time.sleep(0.1); return x*2`.
The decorator (modelled from its documented behaviour, since `functools` is a
library) keeps at most 4 (argument, result) pairs in least-recently-used order:
a hit returns the stored result and refreshes its recency; a miss runs the
wrapped body `x*2`, stores the pair in front, and drops the oldest entry beyond
`maxsize=4`. Returns the call result together with the updated cache. -/
def compute_a_slow_result_cache (cache : List (ℤ × ℤ)) (x : ℤ) : ℤ × List (ℤ × ℤ) :=
  match lruLookup cache x with
  | some v => (v, (x, v) :: cache.filter (fun p => p.1 != x))
  | none =>
      let v := compute_a_slow_result x
      (v, ((x, v) :: cache).take 4)

/-- The cache state reached from the empty cache after calling
`compute_a_slow_result_cache` on the arguments `xs`, in order. -/
def runCalls (xs : List ℤ) : List (ℤ × ℤ) :=
  xs.foldl (fun c x => (compute_a_slow_result_cache c x).2) []

end Caching

end AdvPython

namespace AdvPython

/-- C1: for equal-length arrays `y0, y1` and scalars with `x1 ≠ x0`,
`linear_interpolate(y0, y1, x0, x1, x)` applies the closed-form formula
elementwise: the `i`-th output element equals
`(exp(y0[i]^2) * (x1 - x) + y1[i] * (x - x0)) / (x1 - x0)`. -/
theorem claim_C1_interpolate_formula {K : Type} [Field K] (expf : K → K)
    (y0 y1 : List K) (x0 x1 x : K) (hlen : y0.length = y1.length)
    (hx : x1 ≠ x0) (i : ℕ) (hi : i < y0.length) :
    (linear_interpolate expf y0 y1 x0 x1 x).getD i 0 =
      (expf (y0.getD i 0 ^ 2) * (x1 - x) + y1.getD i 0 * (x - x0)) / (x1 - x0) := by
  have hi1 : i < y1.length := hlen ▸ hi
  have hiz : i < (linear_interpolate expf y0 y1 x0 x1 x).length := by
    simpa [linear_interpolate, hlen] using hi1
  rw [List.getD_eq_getElem _ _ hiz, List.getD_eq_getElem _ _ hi, List.getD_eq_getElem _ _ hi1]
  simp [linear_interpolate]

/-- For equal-length lists, an index loop that writes `f y0[i] y1[i]` into every
cell of a fresh output array computes `List.zipWith f y0 y1`. -/
theorem map_range_getD_eq_zipWith {K : Type} [Field K] (f : K → K → K)
    (y0 y1 : List K) (h : y0.length = y1.length) :
    (List.range y0.length).map (fun i => f (y0.getD i 0) (y1.getD i 0)) =
      List.zipWith f y0 y1 := by
  apply List.ext_getElem
  · simp [h]
  · intro i h1 h2
    have hi0 : i < y0.length := by simpa using h1
    have hi1 : i < y1.length := h ▸ hi0
    simp only [List.getElem_map, List.getElem_range, List.getElem_zipWith]
    rw [List.getD_eq_getElem _ _ hi0, List.getD_eq_getElem _ _ hi1]

/-- Witness for C1 at a concrete input: `y0 = [1, 2]`, `y1 = [3, 4]`,
`x0 = 0`, `x1 = 1`, `x = 1/2`, `i = 0`, with `expf = id` over `ℚ`. -/
theorem claim_C1_witness :
    (([1, 2] : List ℚ).length = ([3, 4] : List ℚ).length ∧ (1 : ℚ) ≠ 0 ∧ 0 < ([1, 2] : List ℚ).length) ∧
    (linear_interpolate (id : ℚ → ℚ) [1, 2] [3, 4] 0 1 (1/2)).getD 0 0 =
      (id ((([1, 2] : List ℚ).getD 0 0) ^ 2) * (1 - 1/2) + (([3, 4] : List ℚ).getD 0 0) * (1/2 - 0)) / (1 - 0) :=
  ⟨⟨by decide, by norm_num, by decide⟩,
    claim_C1_interpolate_formula (id : ℚ → ℚ) [1, 2] [3, 4] 0 1 (1/2)
      (by decide) (by norm_num) 0 (by decide)⟩

/-- C2: the execution strategies for the interpolation kernel do not differ in
semantics: for equal-length arrays and scalars `x0 ≠ x1`, the vectorized numpy
version, the explicit-loop versions (`linear_cython`, `linear_interpolate_good`,
`linear_interpolate_best`) and the string-compiled `linear_interpolate_numexpr`
all compute the same elementwise result. -/
theorem claim_C2_strategies_agree {K : Type} [Field K] (expf : K → K)
    (y0 y1 : List K) (x0 x1 x : K) (hlen : y0.length = y1.length)
    (hx : x0 ≠ x1) :
    linear_cython expf y0 y1 x0 x1 x = linear_interpolate expf y0 y1 x0 x1 x ∧
    linear_interpolate_good expf y0 y1 x0 x1 x = linear_interpolate expf y0 y1 x0 x1 x ∧
    linear_interpolate_best expf y0 y1 x0 x1 x = linear_interpolate expf y0 y1 x0 x1 x ∧
    linear_interpolate_numexpr expf y0 y1 x0 x1 x = linear_interpolate expf y0 y1 x0 x1 x := by
  refine ⟨?_, ?_, ?_, rfl⟩
  · rw [linear_cython, linear_interpolate]
    have h2 := map_range_getD_eq_zipWith
      (fun a b => (expf (a ^ 2) * (x1 - x) + b * (x - x0)) / (x1 - x0)) y0 y1 hlen
    rw [← h2]
    apply List.map_congr_left
    intro i _
    simp only [pow_two]
  · rw [linear_interpolate_good, linear_interpolate]
    exact map_range_getD_eq_zipWith
      (fun a b => (expf (a ^ 2) * (x1 - x) + b * (x - x0)) / (x1 - x0)) y0 y1 hlen
  · rw [linear_interpolate_best, linear_interpolate]
    exact map_range_getD_eq_zipWith
      (fun a b => (expf (a ^ 2) * (x1 - x) + b * (x - x0)) / (x1 - x0)) y0 y1 hlen

/-- Witness for C2 at a concrete input over `ℚ` with `expf = id`. -/
theorem claim_C2_witness :
    (([1, 2] : List ℚ).length = ([3, 4] : List ℚ).length ∧ (0 : ℚ) ≠ 1) ∧
    (linear_cython (id : ℚ → ℚ) [1, 2] [3, 4] 0 1 (1/2) = linear_interpolate id [1, 2] [3, 4] 0 1 (1/2) ∧
    linear_interpolate_good (id : ℚ → ℚ) [1, 2] [3, 4] 0 1 (1/2) = linear_interpolate id [1, 2] [3, 4] 0 1 (1/2) ∧
    linear_interpolate_best (id : ℚ → ℚ) [1, 2] [3, 4] 0 1 (1/2) = linear_interpolate id [1, 2] [3, 4] 0 1 (1/2) ∧
    linear_interpolate_numexpr (id : ℚ → ℚ) [1, 2] [3, 4] 0 1 (1/2) = linear_interpolate id [1, 2] [3, 4] 0 1 (1/2)) :=
  ⟨⟨by decide, by norm_num⟩,
    claim_C2_strategies_agree (id : ℚ → ℚ) [1, 2] [3, 4] 0 1 (1/2) (by decide) (by norm_num)⟩

/-- Counterexample to C3 as stated: evaluating `linear_interpolate` on arrays
of mismatched lengths 2 and 3 (both greater than 1) is a failure mode — numpy
raises its broadcast `ValueError` — so the expression does not evaluate without
failure on every input. -/
theorem claim_C3_counterexample :
    linear_interpolateE (id : ℚ → ℚ) [1, 2] [1, 2, 3] 0 1 2 =
      Except.error "ValueError: operands could not be broadcast together" := by
  rfl

/-- Mapping the uncurried function over a zip is `zipWith`. -/
theorem map_zip_eq_zipWith {K : Type} [Field K] (f : K → K → K) :
    ∀ l1 l2 : List K, (l1.zip l2).map (fun p => f p.1 p.2) = List.zipWith f l1 l2 := by
  intro l1
  induction l1 with
  | nil => intro l2; rfl
  | cons a t ih =>
      intro l2
      cases l2 with
      | nil => rfl
      | cons b t2 => simp [ih]

/-- C3 (amended): the interpolation expression has no branching or state, and
on shape-compatible inputs no failure modes: for every pair of equal-length
arrays and every choice of scalars, including the purported failure point
`x1 = x0`, evaluation succeeds — `linear_interpolateE` returns `Except.ok` of
the total kernel's value with the full expected length, and `linear_cython`
likewise returns a full-length array. Division by `x1 - x0 = 0` is never a
failure mode: float division by zero yields a value, modelled by the field's
total division. Only a length mismatch (the counterexample) fails. -/
theorem claim_C3_total_on_equal_lengths {K : Type} [Field K] (expf : K → K)
    (y0 y1 : List K) (x0 x : K) (hlen : y0.length = y1.length) :
    linear_interpolateE expf y0 y1 x0 x0 x = Except.ok (linear_interpolate expf y0 y1 x0 x0 x) ∧
    (linear_interpolate expf y0 y1 x0 x0 x).length = y0.length ∧
    (linear_cython expf y0 y1 x0 x0 x).length = y0.length := by
  refine ⟨?_, ?_, ?_⟩
  · rw [linear_interpolateE, npBroadcastPair, if_pos hlen]
    rw [linear_interpolate, ← map_zip_eq_zipWith]
  · simp [linear_interpolate, hlen]
  · simp [linear_cython]

/-- Witness for the amended C3 at a concrete input over `ℚ` with `expf = id`,
exercising `x1 = x0 = 1` (division by zero). -/
theorem claim_C3_witness :
    (([1, 2] : List ℚ).length = ([3, 4] : List ℚ).length) ∧
    (linear_interpolateE (id : ℚ → ℚ) [1, 2] [3, 4] 1 1 5 = Except.ok (linear_interpolate id [1, 2] [3, 4] 1 1 5) ∧
    (linear_interpolate (id : ℚ → ℚ) [1, 2] [3, 4] 1 1 5).length = ([1, 2] : List ℚ).length ∧
    (linear_cython (id : ℚ → ℚ) [1, 2] [3, 4] 1 1 5).length = ([1, 2] : List ℚ).length) :=
  ⟨by decide, claim_C3_total_on_equal_lengths (id : ℚ → ℚ) [1, 2] [3, 4] 1 5 (by decide)⟩

/-- C4: shape consistency: for equal-length inputs of length `n = |y0|`, every
strategy returns an array of length exactly `n`. -/
theorem claim_C4_shape_consistency {K : Type} [Field K] (expf : K → K)
    (y0 y1 : List K) (x0 x1 x : K) (hlen : y0.length = y1.length) :
    (linear_interpolate expf y0 y1 x0 x1 x).length = y0.length ∧
    (linear_cython expf y0 y1 x0 x1 x).length = y0.length ∧
    (linear_interpolate_good expf y0 y1 x0 x1 x).length = y0.length ∧
    (linear_interpolate_best expf y0 y1 x0 x1 x).length = y0.length := by
  refine ⟨?_, ?_, ?_, ?_⟩
  · simp [linear_interpolate, hlen]
  · simp [linear_cython]
  · simp [linear_interpolate_good]
  · simp [linear_interpolate_best]

/-- Witness for C4 at a concrete input over `ℚ` with `expf = id`. -/
theorem claim_C4_witness :
    (([1, 2] : List ℚ).length = ([3, 4] : List ℚ).length) ∧
    ((linear_interpolate (id : ℚ → ℚ) [1, 2] [3, 4] 0 1 (1/2)).length = ([1, 2] : List ℚ).length ∧
    (linear_cython (id : ℚ → ℚ) [1, 2] [3, 4] 0 1 (1/2)).length = ([1, 2] : List ℚ).length ∧
    (linear_interpolate_good (id : ℚ → ℚ) [1, 2] [3, 4] 0 1 (1/2)).length = ([1, 2] : List ℚ).length ∧
    (linear_interpolate_best (id : ℚ → ℚ) [1, 2] [3, 4] 0 1 (1/2)).length = ([1, 2] : List ℚ).length) :=
  ⟨by decide, claim_C4_shape_consistency (id : ℚ → ℚ) [1, 2] [3, 4] 0 1 (1/2) (by decide)⟩

/-- C5: the pure computations are deterministic: equal arguments give equal
results. In the shallow embedding both functions are pure functions of their
arguments alone (no environment parameter exists), so determinism is
congruence in the arguments. -/
theorem claim_C5_determinism {K : Type} [Field K] (expf : K → K)
    (y0 y1 y0' y1' : List K) (x0 x1 x x0' x1' x' : K)
    (size iterations size' iterations' : ℕ)
    (h1 : y0 = y0') (h2 : y1 = y1') (h3 : x0 = x0') (h4 : x1 = x1') (h5 : x = x')
    (h6 : size = size') (h7 : iterations = iterations') :
    linear_interpolate expf y0 y1 x0 x1 x = linear_interpolate expf y0' y1' x0' x1' x' ∧
    mandelbrot_python size iterations = mandelbrot_python size' iterations' := by
  subst h1; subst h2; subst h3; subst h4; subst h5; subst h6; subst h7
  exact ⟨rfl, rfl⟩

/-- Witness for C5 at a concrete input over `ℚ` with `expf = id`. -/
theorem claim_C5_witness :
    (([1] : List ℚ) = [1] ∧ ([2] : List ℚ) = [2] ∧ (0 : ℚ) = 0 ∧ (1 : ℚ) = 1 ∧
      (1/2 : ℚ) = 1/2 ∧ (2 : ℕ) = 2 ∧ (3 : ℕ) = 3) ∧
    (linear_interpolate (id : ℚ → ℚ) [1] [2] 0 1 (1/2) = linear_interpolate id [1] [2] 0 1 (1/2) ∧
      mandelbrot_python 2 3 = mandelbrot_python 2 3) :=
  ⟨⟨rfl, rfl, rfl, rfl, rfl, rfl, rfl⟩,
    claim_C5_determinism (id : ℚ → ℚ) [1] [2] [1] [2] 0 1 (1/2) 0 1 (1/2) 2 3 2 3
      rfl rfl rfl rfl rfl rfl rfl⟩

/-- Key invariant of the escape loop: if the value written so far is below the
iteration bound and the remaining fuel keeps the loop index below the bound,
the loop result stays below the bound. -/
theorem mandelLoop_lt (c : Cx) (I : ℕ) :
    ∀ fuel z m n, m < I → n + fuel ≤ I → mandelLoop c fuel z m n < I := by
  intro fuel
  induction fuel with
  | zero => intro z m n hm _; simpa [mandelLoop] using hm
  | succ f ih =>
      intro z m n hm hn
      rw [mandelLoop]
      by_cases hz : z.absSq ≤ 100
      · rw [if_pos hz]
        exact ih ((z.mul z).add c) n (n + 1) (by omega) (by omega)
      · rw [if_neg hz]
        exact hm

/-- The numba escape loop is the same function as the python escape loop. -/
theorem mandelLoopNumba_eq_mandelLoop (c : Cx) :
    ∀ fuel z m n, mandelLoopNumba c fuel z m n = mandelLoop c fuel z m n := by
  intro fuel
  induction fuel with
  | zero => intro z m n; rfl
  | succ f ih =>
      intro z m n
      rw [mandelLoopNumba, mandelLoop]
      by_cases hz : z.absSq ≤ 100
      · rw [if_pos hz, if_pos hz, ih]
      · rw [if_neg hz, if_neg hz]

/-- C9: for `size ≥ 1` and `iterations ≥ 1`, `mandelbrot_python` returns a
`size × size` matrix whose entries all lie in `[0, iterations − 1]` (the lower
bound is inherent in `ℕ`), and `mandelbrot_numba`, whose body is identical,
returns the same matrix. -/
theorem claim_C9_mandelbrot_invariant (size iterations : ℕ)
    (hs : 1 ≤ size) (hi : 1 ≤ iterations) :
    (mandelbrot_python size iterations).length = size ∧
    (∀ row ∈ mandelbrot_python size iterations, row.length = size) ∧
    (∀ row ∈ mandelbrot_python size iterations, ∀ v ∈ row, v ≤ iterations - 1) ∧
    mandelbrot_numba size iterations = mandelbrot_python size iterations := by
  refine ⟨by simp [mandelbrot_python], ?_, ?_, ?_⟩
  · intro row hrow
    rw [mandelbrot_python] at hrow
    obtain ⟨i, _, hrow⟩ := List.mem_map.mp hrow
    rw [← hrow]
    simp
  · intro row hrow v hv
    rw [mandelbrot_python] at hrow
    obtain ⟨i, _, hrow⟩ := List.mem_map.mp hrow
    rw [← hrow] at hv
    obtain ⟨j, _, hval⟩ := List.mem_map.mp hv
    rw [← hval, mandelEntry]
    have hlt := mandelLoop_lt ⟨-2 + 3 / (size : ℚ) * (j : ℚ), 3 / 2 - 3 / (size : ℚ) * (i : ℚ)⟩
      iterations iterations ⟨0, 0⟩ 0 0 hi (by omega)
    omega
  · rw [mandelbrot_numba, mandelbrot_python]
    apply List.map_congr_left
    intro i _
    apply List.map_congr_left
    intro j _
    rw [mandelEntryNumba, mandelEntry, mandelLoopNumba_eq_mandelLoop]

/-- Witness for C9 at `size = 2`, `iterations = 2`. -/
theorem claim_C9_witness :
    ((1 : ℕ) ≤ 2 ∧ (1 : ℕ) ≤ 2) ∧
    ((mandelbrot_python 2 2).length = 2 ∧
    (∀ row ∈ mandelbrot_python 2 2, row.length = 2) ∧
    (∀ row ∈ mandelbrot_python 2 2, ∀ v ∈ row, v ≤ 2 - 1) ∧
    mandelbrot_numba 2 2 = mandelbrot_python 2 2) :=
  ⟨⟨by decide, by decide⟩, claim_C9_mandelbrot_invariant 2 2 (by decide) (by decide)⟩

/-- C10: `hash_all(n)` and `hash_all_process(n)` both return the string
`"done"` for every `n`, whatever the digest function does: the serial loop and
the pool map discard every per-iteration result, so the two functions are
extensionally equal. -/
theorem claim_C10_hash_all_done (pbkdf2 : ℕ → List ℕ) (n : ℕ) :
    hash_all pbkdf2 n = "done" ∧ hash_all_process pbkdf2 n = "done" ∧
    hash_all pbkdf2 n = hash_all_process pbkdf2 n :=
  ⟨rfl, rfl, rfl⟩

/-- Draining tasks distributes over list append: the first error in the front
segment short-circuits the rest. -/
theorem runTasks_append {E : Type} (f : ℕ → Except E String) (l1 l2 : List ℕ) :
    runTasks f (l1 ++ l2) =
      (match runTasks f l1 with
       | Except.ok _ => runTasks f l2
       | Except.error e => Except.error e) := by
  induction l1 with
  | nil => rfl
  | cons i rest ih =>
      rcases h : f i with e | s
      · simp [runTasks, h]
      · simp [runTasks, h, ih]

/-- If every task in the list succeeds, draining them succeeds. -/
theorem runTasks_ok_of {E : Type} (f : ℕ → Except E String) (l : List ℕ)
    (h : ∀ j ∈ l, ∃ s, f j = Except.ok s) : runTasks f l = Except.ok () := by
  induction l with
  | nil => rfl
  | cons i rest ih =>
      obtain ⟨s, hs⟩ := h i (List.mem_cons_self i rest)
      rw [runTasks, hs]
      exact ih (fun j hj => h j (List.mem_cons_of_mem i hj))

/-- Draining `range n` surfaces the first task error unchanged. -/
theorem runTasks_range_error {E : Type} (f : ℕ → Except E String) :
    ∀ n i, i < n → ∀ e, f i = Except.error e → (∀ j < i, ∃ s, f j = Except.ok s) →
      runTasks f (List.range n) = Except.error e := by
  intro n
  induction n with
  | zero => intro i hi; omega
  | succ m ih =>
      intro i hi e herr hok
      rw [List.range_succ, runTasks_append]
      by_cases him : i < m
      · rw [ih i him e herr hok]
      · have him2 : i = m := by omega
        have hall : ∀ j ∈ List.range m, ∃ s, f j = Except.ok s := by
          intro j hj
          have hjm := List.mem_range.mp hj
          exact hok j (by omega)
        rw [runTasks_ok_of f (List.range m) hall]
        have herr2 : f m = Except.error e := by rw [← him2]; exact herr
        rw [runTasks, herr2]

/-- C7: no function implements its own error handling: when an invoked library
call raises, the enclosing function propagates that error unchanged.
For `hash_all_process`, if the first failing task (index `i`, all earlier tasks
succeeding) raises `e`, the function's result is exactly `Except.error e`; for
`linear_interpolate_numexpr`, an error raised by `ne.evaluate` is returned
untouched. -/
theorem claim_C7_error_propagation {E : Type} (hashOne : ℕ → Except E String)
    (n i : ℕ) (e : E) (hi : i < n) (herr : hashOne i = Except.error e)
    (hok : ∀ j < i, ∃ s, hashOne j = Except.ok s) :
    hash_all_processE hashOne n = Except.error e ∧
    (∀ e2 : E, linear_interpolate_numexprE (Except.error e2 : Except E (List ℚ)) = Except.error e2) := by
  constructor
  · rw [hash_all_processE, runTasks_range_error hashOne n i hi e herr hok]
  · intro e2
    rfl

/-- Witness for C7: a pool of 3 tasks whose task 1 fails with `"boom"` after
task 0 succeeds. -/
theorem claim_C7_witness :
    ((1 : ℕ) < 3 ∧
      (fun j => if j < 1 then (Except.ok "done" : Except String String) else Except.error "boom") 1 = Except.error "boom" ∧
      (∀ j < 1, ∃ s, (fun j => if j < 1 then (Except.ok "done" : Except String String) else Except.error "boom") j = Except.ok s)) ∧
    (hash_all_processE (fun j => if j < 1 then (Except.ok "done" : Except String String) else Except.error "boom") 3 = Except.error "boom" ∧
      (∀ e2 : String, linear_interpolate_numexprE (Except.error e2 : Except String (List ℚ)) = Except.error e2)) :=
  ⟨⟨by decide, rfl, fun j hj => ⟨"done", by simp [hj]⟩⟩,
    claim_C7_error_propagation
      (fun j => if j < 1 then (Except.ok "done" : Except String String) else Except.error "boom")
      3 1 "boom" (by decide) rfl (fun j hj => ⟨"done", by simp [hj]⟩)⟩

/-- Every value stored in a well-formed cache is the doubled key, so a cache
hit returns the doubled argument. -/
theorem lruLookup_eq_double (c : List (ℤ × ℤ)) (x v : ℤ)
    (hg : ∀ p ∈ c, p.2 = p.1 * 2) (h : lruLookup c x = some v) : v = x * 2 := by
  induction c with
  | nil => simp [lruLookup] at h
  | cons p rest ih =>
      obtain ⟨k, w⟩ := p
      rw [lruLookup] at h
      by_cases hk : k = x
      · rw [if_pos hk] at h
        have hw := hg (k, w) (List.mem_cons_self _ _)
        simp at hw
        cases h
        omega
      · rw [if_neg hk] at h
        exact ih (fun q hq => hg q (List.mem_cons_of_mem _ hq)) h

/-- One cached call preserves well-formedness of the cache. -/
theorem cache_step_good (c : List (ℤ × ℤ)) (x : ℤ)
    (hg : ∀ p ∈ c, p.2 = p.1 * 2) :
    ∀ p ∈ (compute_a_slow_result_cache c x).2, p.2 = p.1 * 2 := by
  intro p hp
  rw [compute_a_slow_result_cache] at hp
  rcases h : lruLookup c x with _ | v
  · rw [h] at hp
    simp only at hp
    have hp2 := List.mem_of_mem_take hp
    rcases List.mem_cons.mp hp2 with h1 | h2
    · subst h1; simp [compute_a_slow_result]
    · exact hg p h2
  · rw [h] at hp
    simp only at hp
    rcases List.mem_cons.mp hp with h1 | h2
    · subst h1
      simpa using lruLookup_eq_double c x v hg h
    · exact hg p (List.mem_filter.mp h2).1

/-- Any cache state reachable by a sequence of calls is well-formed. -/
theorem runCalls_good (xs : List ℤ) :
    ∀ p ∈ runCalls xs, p.2 = p.1 * 2 := by
  rw [runCalls]
  have main : ∀ (ys : List ℤ) (c : List (ℤ × ℤ)), (∀ p ∈ c, p.2 = p.1 * 2) →
      ∀ p ∈ ys.foldl (fun c x => (compute_a_slow_result_cache c x).2) c, p.2 = p.1 * 2 := by
    intro ys
    induction ys with
    | nil => intro c hc; simpa using hc
    | cons y rest ih =>
        intro c hc
        rw [List.foldl_cons]
        exact ih _ (cache_step_good c y hc)
  exact main xs [] (by simp)

/-- C8: the memoizing decorator is observationally transparent in return
values: after any sequence of prior calls (any cache state reachable from the
empty cache), calling the cached function on `x` returns exactly
`compute_a_slow_result x = x * 2`. -/
theorem claim_C8_cache_transparent (xs : List ℤ) (x : ℤ) :
    (compute_a_slow_result_cache (runCalls xs) x).1 = compute_a_slow_result x := by
  have hg := runCalls_good xs
  rw [compute_a_slow_result_cache]
  rcases h : lruLookup (runCalls xs) x with _ | v
  · rfl
  · simp only
    rw [compute_a_slow_result]
    exact lruLookup_eq_double (runCalls xs) x v hg h

end AdvPython
